import Mathlib

/-!
Formal model of the navigation-mesh debug-draw utilities of this repository
(src/debug_draw.rs, src/debug_draw2.rs, src/obj_loader.rs).

Modelling conventions:
* f32 scalars are modelled as exact rationals; every concrete input used in a
  theorem below is exactly representable in f32 and every arithmetic operation
  performed on it is exact, so the rational computation agrees with the f32 one.
* glam Vec2/Vec3/Vec4 become rational-component structures.
* The immediate-mode drawing sink (trait DebugDraw) is modelled by the trace of
  calls it receives, as a list of DrawEvent values; the pluggable area_to_col
  lookup is a function parameter.
* A Rust Vec indexing operation, which panics when out of bounds, is modelled
  by List indexing in the Option monad: none is the panic branch.
-/

/-- Two-component vector (glam Vec2) with exact rational components. -/
structure Vec2 where
  x : ℚ
  y : ℚ
deriving DecidableEq, Repr

/-- Three-component vector (glam Vec3) with exact rational components. -/
structure Vec3 where
  x : ℚ
  y : ℚ
  z : ℚ
deriving DecidableEq, Repr

/-- Four-component vector (glam Vec4) with exact rational components. -/
structure Vec4 where
  x : ℚ
  y : ℚ
  z : ℚ
  w : ℚ
deriving DecidableEq, Repr

/-- One call on the DebugDraw sink (debug_draw.rs lines 21-26 plus the
vertex_uv/texture methods of debug_draw2.rs lines 101-107). -/
inductive DrawEvent where
  | begin (prim : ℤ) (size : ℚ)
  | vertex (pos : Vec3) (color : Vec4)
  | vertexUv (pos : Vec3) (color : Vec4) (uv : Vec2)
  | endBatch
  | texture (state : Bool)
deriving DecidableEq, Repr

/-- debug_draw.rs line 3: pub const DU_DRAW_QUADS: i32 = 1. -/
def DU_DRAW_QUADS : ℤ := 1

/-- debug_draw.rs line 4: pub const DU_DRAW_LINES: i32 = 2. -/
def DU_DRAW_LINES : ℤ := 2

/-- debug_draw.rs line 5: pub const DU_DRAW_POINTS: i32 = 3. -/
def DU_DRAW_POINTS : ℤ := 3

/-- debug_draw2.rs line 110: pub const DU_DRAW_TRIS: i32 = 2. -/
def DU_DRAW_TRIS : ℤ := 2

/-- debug_draw.rs line 6: pub const RC_NULL_AREA: u8 = 0. -/
def RC_NULL_AREA : ℕ := 0

/-- debug_draw.rs line 7: pub const RC_WALKABLE_AREA: u8 = 63. -/
def RC_WALKABLE_AREA : ℕ := 63

/-- debug_draw.rs line 8: pub const RC_MESH_NULL_IDX: u16 = 0xffff. -/
def RC_MESH_NULL_IDX : ℕ := 65535

/-- debug_draw.rs lines 10-19: the polygon mesh.  u16 vertex indices are
modelled as naturals (the code only ever stores values below 2^16), the i32
field nvp as an integer. -/
structure PolyMesh where
  verts : List Vec3
  polys : List (List ℕ)
  areas : List ℕ
  nvp : ℤ
  cs : ℚ
  ch : ℚ
  bmin : Vec3
deriving Repr

/-- The grid-local to world transform of du_debug_draw_poly_mesh
(debug_draw.rs lines 61-63, 98-100 and 112-114): the horizontal components are
scaled by the cell size, the height by the cell height with a one-cell lift,
plus the extra 0.1 world-unit lift of the boundary and point passes. -/
def fillTransform (cs ch : ℚ) (bmin : Vec3) (lift : ℚ) (v : Vec3) : Vec3 :=
  ⟨bmin.x + v.x * cs, bmin.y + (v.y + 1) * ch + lift, bmin.z + v.z * cs⟩

/-- Vertex emission shared by the fill pass (debug_draw.rs lines 56-65, with
lift = 0) and the boundary pass (lines 93-102, with lift = 1/10): each index of
the list is compared against the vertex count truncated to u16 (the Rust
expression mesh.verts.len() as u16 is len % 2^16) and skipped if out of range,
otherwise the vertex is fetched (a panicking index, modelled fallibly) and
emitted after the grid-to-world transform. -/
def vertEvents (verts : List Vec3) (cs ch : ℚ) (bmin : Vec3) (lift : ℚ)
    (color : Vec4) : List ℕ → Option (List DrawEvent)
  | [] => some []
  | vi :: rest =>
    if vi ≥ verts.length % 65536 then
      vertEvents verts cs ch bmin lift color rest
    else do
      let v ← verts[vi]?
      let tail ← vertEvents verts cs ch bmin lift color rest
      some (DrawEvent.vertex (fillTransform cs ch bmin lift v) color :: tail)

/-- debug_draw.rs lines 46-66, the fan-triangulation loop of the fill pass for
one polygon.  The argument list js is the iteration space of the Rust loop
for j in 2..nvp (see fillRange); the two break conditions (index position past
the end of the stored row, or the sentinel) end the polygon. -/
def fillLoop (verts : List Vec3) (cs ch : ℚ) (bmin : Vec3) (color : Vec4)
    (poly : List ℕ) : List ℕ → Option (List DrawEvent)
  | [] => some []
  | j :: rest =>
    match poly[j]? with
    | none => some []
    | some pj =>
      if pj = RC_MESH_NULL_IDX then some []
      else do
        let p0 ← poly[0]?
        let pp ← poly[j - 1]?
        let evs ← vertEvents verts cs ch bmin 0 color [p0, pp, pj]
        let tail ← fillLoop verts cs ch bmin color poly rest
        some (evs ++ tail)

/-- The iteration space of the Rust loop for j in 2..nvp (empty when
nvp <= 2). -/
def fillRange (nvp : ℤ) : List ℕ :=
  List.range' 2 (nvp - 2).toNat

/-- debug_draw.rs lines 37-43: the area-derived fill color.  The external
area_to_col lookup of the sink is the parameter areaToCol. -/
def polyColor (areaToCol : ℕ → Vec4) (area : ℕ) : Vec4 :=
  if area = RC_WALKABLE_AREA then ⟨0, 3/4, 1, 1/4⟩
  else if area = RC_NULL_AREA then ⟨0, 0, 0, 1/4⟩
  else areaToCol area

/-- debug_draw.rs lines 33-67: the fill pass over all polygons; i is the
enumeration index used to fetch the polygon's area byte (a panicking index). -/
def fillPolys (areaToCol : ℕ → Vec4) (verts : List Vec3) (cs ch : ℚ)
    (bmin : Vec3) (nvp : ℤ) (areas : List ℕ) (i : ℕ) :
    List (List ℕ) → Option (List DrawEvent)
  | [] => some []
  | poly :: rest => do
    let area ← areas[i]?
    let evs ← fillLoop verts cs ch bmin (polyColor areaToCol area) poly
      (fillRange nvp)
    let tail ← fillPolys areaToCol verts cs ch bmin nvp areas (i + 1) rest
    some (evs ++ tail)

/-- debug_draw.rs line 72: the fixed boundary-edge color (0.86 = 43/50). -/
def colBoundary : Vec4 := ⟨0, 1/4, 1/4, 43/50⟩

/-- debug_draw.rs line 109: the fixed vertex-point color. -/
def colVertex : Vec4 := ⟨0, 0, 0, 43/50⟩

/-- debug_draw.rs lines 75-103, the boundary-edge loop for one polygon.  The
next-index computation (lines 82-88) short-circuits: when j + 1 < nvp the row
entry at j + 1 is read unconditionally - a panicking index when the stored row
is shorter than nvp and carries no sentinel terminator. -/
def boundLoop (verts : List Vec3) (cs ch : ℚ) (bmin : Vec3) (nvp : ℤ)
    (poly : List ℕ) : List ℕ → Option (List DrawEvent)
  | [] => some []
  | j :: rest =>
    match poly[j]? with
    | none => some []
    | some pj =>
      if pj = RC_MESH_NULL_IDX then some []
      else do
        let nj ←
          if (j : ℤ) + 1 ≥ nvp then some 0
          else do
            let pn ← poly[j + 1]?
            some (if pn = RC_MESH_NULL_IDX then 0 else j + 1)
        let p0 ← poly[j]?
        let p1 ← poly[nj]?
        let evs ← vertEvents verts cs ch bmin (1/10) colBoundary [p0, p1]
        let tail ← boundLoop verts cs ch bmin nvp poly rest
        some (evs ++ tail)

/-- The iteration space of the Rust loop for j in 0..nvp. -/
def boundRange (nvp : ℤ) : List ℕ :=
  List.range nvp.toNat

/-- debug_draw.rs lines 74-104: the boundary pass over all polygons. -/
def boundPolys (verts : List Vec3) (cs ch : ℚ) (bmin : Vec3) (nvp : ℤ) :
    List (List ℕ) → Option (List DrawEvent)
  | [] => some []
  | poly :: rest => do
    let evs ← boundLoop verts cs ch bmin nvp poly (boundRange nvp)
    let tail ← boundPolys verts cs ch bmin nvp rest
    some (evs ++ tail)

/-- debug_draw.rs lines 111-116: the vertex-point pass (never fails). -/
def pointEvents (cs ch : ℚ) (bmin : Vec3) (verts : List Vec3) :
    List DrawEvent :=
  verts.map fun v => DrawEvent.vertex (fillTransform cs ch bmin (1/10) v) colVertex

/-- debug_draw.rs lines 28-118: du_debug_draw_poly_mesh, as the trace of sink
calls it makes.  none models a panic. -/
def duDebugDrawPolyMesh (areaToCol : ℕ → Vec4) (m : PolyMesh) :
    Option (List DrawEvent) := do
  let fills ← fillPolys areaToCol m.verts m.cs m.ch m.bmin m.nvp m.areas 0
    m.polys
  let bounds ← boundPolys m.verts m.cs m.ch m.bmin m.nvp m.polys
  some ([DrawEvent.begin DU_DRAW_QUADS 1] ++ fills ++ [DrawEvent.endBatch]
    ++ [DrawEvent.begin DU_DRAW_LINES (5/2)] ++ bounds ++ [DrawEvent.endBatch]
    ++ [DrawEvent.begin DU_DRAW_POINTS 3] ++ pointEvents m.cs m.ch m.bmin m.verts
    ++ [DrawEvent.endBatch])

/-- Length of the longest prefix of the row holding no sentinel, capped at a
given number of positions. -/
def validCountAux : ℕ → List ℕ → ℕ
  | 0, _ => 0
  | _, [] => 0
  | c + 1, v :: rest =>
    if v = RC_MESH_NULL_IDX then 0 else validCountAux c rest + 1

/-- The number k of valid indices of a polygon row: the longest prefix of the
stored row whose entries are not the sentinel, ending at the sentinel, the end
of the stored row, or nvp. -/
def validCount (nvp : ℤ) (poly : List ℕ) : ℕ :=
  validCountAux nvp.toNat poly

/-- The fan triangles the spec promises for a polygon with k valid indices:
for each position i of 2..k, the three vertex calls for the triangle
[poly[0], poly[i-1], poly[i]]. -/
def fanSpecEvents (verts : List Vec3) (cs ch : ℚ) (bmin : Vec3) (color : Vec4)
    (poly : List ℕ) (k : ℕ) : List DrawEvent :=
  (List.range' 2 (k - 2)).flatMap fun i =>
    [poly.getD 0 0, poly.getD (i - 1) 0, poly.getD i 0].map fun vi =>
      DrawEvent.vertex (fillTransform cs ch bmin 0 (verts.getD vi ⟨0, 0, 0⟩))
        color

/-- The closed boundary loop the spec promises for a polygon with k valid
indices: for each position j of 0..k, the two vertex calls of the edge from
valid vertex j to valid vertex (j+1) mod k (the last edge wraps back to the
first valid vertex). -/
def edgeSpecEvents (verts : List Vec3) (cs ch : ℚ) (bmin : Vec3)
    (poly : List ℕ) (k : ℕ) : List DrawEvent :=
  (List.range k).flatMap fun j =>
    [poly.getD j 0, poly.getD ((j + 1) % k) 0].map fun vi =>
      DrawEvent.vertex (fillTransform cs ch bmin (1/10) (verts.getD vi ⟨0, 0, 0⟩))
        colBoundary

/-- The color channel value the spec's words promise for the slope renderer
once round is amended to the truncation the Rust cast performs: clamp to
[0, 255] first, then truncate toward zero (the clamped value is nonnegative,
so truncation is the floor). -/
def specTruncClamp (q : ℚ) : ℤ :=
  ⌊min 255 (max 0 q)⌋

/-- The color channel value the spec literally promises for the slope
renderer: round(clamp(q, 0, 255)). -/
def specRoundClamp (q : ℚ) : ℤ :=
  round (min 255 (max 0 q))

/-- Projection of an event to its color, when it is a vertex emission. -/
def eventColor : DrawEvent → Option Vec4
  | .vertex _ c => some c
  | .vertexUv _ c _ => some c
  | _ => none

/-- Projection of an event to its texture coordinate, when it is a textured
vertex emission. -/
def eventUv : DrawEvent → Option Vec2
  | .vertexUv _ _ uv => some uv
  | _ => none

/-- debug_draw2.rs lines 4-9: the input triangle mesh; tris holds i32 values. -/
structure InputMesh where
  verts : List Vec3
  tris : List ℤ
  normals : List Vec3
deriving Repr

/-- Component access v[i] of glam Vec3 (its Index impl: 0 is x, 1 is y, 2 is z;
any other index panics in glam, never reached by this code). -/
def vecIdx (v : Vec3) : ℕ → ℚ
  | 0 => v.x
  | 1 => v.y
  | 2 => v.z
  | _ => 0

/-- The Rust cast expr as u8 applied to an f32: saturate to [0, 255] and
truncate toward zero (truncation of a value at least 0 is the floor, and the
saturation makes the negative range irrelevant to the floor/trunc
difference). -/
def rustCastU8 (q : ℚ) : ℕ :=
  (min 255 (max 0 ⌊q⌋)).toNat

/-- debug_draw2.rs lines 96-98: lerp_col is glam Vec4::lerp, componentwise
a + (b - a) * t. -/
def lerpCol (a b : Vec4) (t : ℚ) : Vec4 :=
  ⟨a.x + (b.x - a.x) * t, a.y + (b.y - a.y) * t,
   a.z + (b.z - a.z) * t, a.w + (b.w - a.w) * t⟩

/-- debug_draw2.rs line 39: the fixed unwalkable tint. -/
def unwalkableCol : Vec4 := ⟨3/4, 1/2, 0, 1⟩

/-- debug_draw2.rs lines 46-52: the base greyscale color of a triangle with
normal n, from the byte a = ((2 + n.x + n.y) / 4 * 220) as u8, each channel
a / 255 and alpha 1. -/
def slopeBaseCol (n : Vec3) : Vec4 :=
  ⟨(rustCastU8 ((2 + n.x + n.y) / 4 * 220) : ℚ) / 255,
   (rustCastU8 ((2 + n.x + n.y) / 4 * 220) : ℚ) / 255,
   (rustCastU8 ((2 + n.x + n.y) / 4 * 220) : ℚ) / 255, 1⟩

/-- debug_draw2.rs lines 54-58: the triangle color: the base greyscale,
blended toward the unwalkable tint with factor 64/255 when the normal's y
falls below the walkable threshold. -/
def slopeColor (n : Vec3) (walkableThr : ℚ) : Vec4 :=
  if n.y < walkableThr then lerpCol (slopeBaseCol n) unwalkableCol (64/255)
  else slopeBaseCol n

/-- debug_draw2.rs lines 66-74: texture-axis selection.  Starts at axis 0,
switches to 1 when the normal's y magnitude beats the current axis component,
then to 2 when the z magnitude beats the (possibly updated) one. -/
def axisSel (n : Vec3) : ℕ :=
  let ax : ℕ := 0
  let ax := if |n.y| > |vecIdx n ax| then 1 else ax
  let ax := if |n.z| > |vecIdx n ax| then 2 else ax
  ax

/-- debug_draw2.rs lines 92-94: tex_coord. -/
def texCoord (v : Vec3) (ax ay : ℕ) (scale : ℚ) : Vec2 :=
  ⟨vecIdx v ax * scale, vecIdx v ay * scale⟩

/-- The Rust cast expr as usize applied to an i32 triangle index: a negative
value wraps to a huge number, far beyond any actual Vec length, so indexing
with it panics; the model maps it to the panic branch directly. -/
def i32AsIndex (t : ℤ) : Option ℕ :=
  if t < 0 then none else some t.toNat

/-- The iteration space of the Rust loop for i in (0..n).step_by(3): the
values 0, 3, 6, ... below n. -/
def slopeRange (n : ℕ) : List ℕ :=
  List.range' 0 ((n + 2) / 3) 3

/-- debug_draw2.rs lines 42-86: the per-triangle loop of
du_debug_draw_tri_mesh_slope; the argument list is the iteration space of
for i in (0..tris.len()).step_by(3) (see slopeRange).  Mirrors the body
order: normal fetch (note: normals[i], in bounds exactly because the mesh
stores one normal per triangle corner, 3x duplicated - see viewer.rs lines
224-237), color from slope, the three vertex fetches, the texture-axis bit
trick ax = (1 << ax) & 3 and ay = (1 << ax) & 3 on the updated ax, then the
three vertex_uv calls. -/
def slopeLoop (m : InputMesh) (walkableThr texScale : ℚ) :
    List ℕ → Option (List DrawEvent)
  | [] => some []
  | i :: is => do
    let norm ← m.normals[i]?
    let color := slopeColor norm walkableThr
    let t0 ← m.tris[i]?
    let t1 ← m.tris[i + 1]?
    let t2 ← m.tris[i + 2]?
    let n0 ← i32AsIndex t0
    let n1 ← i32AsIndex t1
    let n2 ← i32AsIndex t2
    let va ← m.verts[n0]?
    let vb ← m.verts[n1]?
    let vc ← m.verts[n2]?
    let ax := axisSel norm
    let ax := (1 <<< ax) &&& 3
    let ay := (1 <<< ax) &&& 3
    let uva := texCoord va ax ay texScale
    let uvb := texCoord vb ax ay texScale
    let uvc := texCoord vc ax ay texScale
    let tail ← slopeLoop m walkableThr texScale is
    some (DrawEvent.vertexUv va color uva :: DrawEvent.vertexUv vb color uvb ::
      DrawEvent.vertexUv vc color uvc :: tail)

/-- debug_draw2.rs lines 22-90: du_debug_draw_tri_mesh_slope as the trace of
sink calls.  The source computes the threshold as the cosine of the slope
angle (line 33); the cosine of a rational is not rational, so the embedding
takes the already-computed threshold value as the parameter walkableThr (no
claim below depends on the cosine itself). -/
def duDebugDrawTriMeshSlope (m : InputMesh) (walkableThr texScale : ℚ) :
    Option (List DrawEvent) :=
  if m.verts = [] ∨ m.tris = [] ∨ m.normals = [] then some []
  else do
    let body ← slopeLoop m walkableThr texScale (slopeRange m.tris.length)
    some ([DrawEvent.texture true, DrawEvent.begin DU_DRAW_TRIS 1] ++ body
      ++ [DrawEvent.endBatch, DrawEvent.texture false])

/-- obj_loader.rs lines 12-16: the loader output.  Vertex coordinates are f32,
modelled as rationals; faces hold usize indices. -/
structure ObjData where
  vertices : List Vec3
  faces : List (List ℕ)
deriving DecidableEq, Repr

/-- obj_loader.rs lines 18-22: the typed load error.  The carried payloads
(io::Error, message String) are dropped; only the kind matters here. -/
inductive ObjLoadError where
  | ioError
  | parseError
deriving DecidableEq, Repr

/-- obj_loader.rs lines 132-134: vertex_count (the dummy vertex at index 0 is
not counted). -/
def ObjData.vertexCount (o : ObjData) : ℕ :=
  o.vertices.length - 1

/-- obj_loader.rs lines 137-139: face_count. -/
def ObjData.faceCount (o : ObjData) : ℕ :=
  o.faces.length

/-- obj_loader.rs lines 142-155: triangulate.  Every face of length at least 3
is fan-triangulated from its first vertex, for i in 1..(face.len() - 1); both
fetched positions are within the face, so the total getD accessor coincides
with the panicking index of the source. -/
def ObjData.triangulate (o : ObjData) : List (ℕ × ℕ × ℕ) :=
  o.faces.flatMap fun face =>
    if 3 ≤ face.length then
      (List.range' 1 (face.length - 2)).map fun i =>
        (face.getD 0 0, face.getD i 0, face.getD (i + 1) 0)
    else []

/-- The literal token v, first token of an OBJ vertex line. -/
def vTok : String := "v"

/-- The literal token f, first token of an OBJ face line. -/
def fTok : String := "f"

/-- The slash separator character of OBJ face tokens of the form
idx/tex/normal. -/
def slashChar : Char := '/'

/-- obj_loader.rs lines 68-70: of a face token, only the text before the
first slash is parsed as the index: token.split on the slash character, then
next() takes the first piece, which for a one-character separator is the
longest prefix holding no slash. -/
def faceIndexToken (t : String) : String :=
  String.mk (t.data.takeWhile fun c => c ≠ slashChar)

/-- obj_loader.rs lines 65-76: parse all face tokens, short-circuiting at the
first malformed one (the collect over Result).  The numeric parse itself
(str::parse for usize) is external standard-library code, passed in as
parseU. -/
def parseFaceTokens (parseU : String → Option ℕ) :
    List String → Option (List ℕ)
  | [] => some []
  | t :: rest => do
    let i ← parseU (faceIndexToken t)
    let more ← parseFaceTokens parseU rest
    some (i :: more)

/-- obj_loader.rs lines 44-83: the line loop of load_obj.  Each input element
models one item of the BufReader lines iterator: none is an I/O read failure
(the line? at line 45), some toks a line already split into whitespace tokens.
vertices and faces are the accumulators; parseF models str::parse for f32. -/
def loadObjLines (parseF : String → Option ℚ) (parseU : String → Option ℕ)
    (vertices : List Vec3) (faces : List (List ℕ)) :
    List (Option (List String)) → Except ObjLoadError ObjData
  | [] => .ok ⟨vertices, faces⟩
  | none :: _ => .error ObjLoadError.ioError
  | some toks :: rest =>
    match toks with
    | [] => loadObjLines parseF parseU vertices faces rest
    | t :: args =>
      if t = vTok then
        match (args[0]?).bind parseF with
        | none => .error ObjLoadError.parseError
        | some x =>
          match (args[1]?).bind parseF with
          | none => .error ObjLoadError.parseError
          | some y =>
            match (args[2]?).bind parseF with
            | none => .error ObjLoadError.parseError
            | some z =>
              loadObjLines parseF parseU (vertices ++ [⟨x, y, z⟩]) faces rest
      else if t = fTok then
        match parseFaceTokens parseU args with
        | none => .error ObjLoadError.parseError
        | some idxs =>
          loadObjLines parseF parseU vertices (faces ++ [idxs]) rest
      else loadObjLines parseF parseU vertices faces rest

/-- obj_loader.rs lines 30-86: load_obj.  The input openResult models the
outcome of File::open plus the sequence of line reads: none is an open
failure (the ? at line 31).  On success the dummy vertex at index 0 is pushed
first (lines 37-42), then the lines are processed. -/
def loadObj (parseF : String → Option ℚ) (parseU : String → Option ℕ)
    (openResult : Option (List (Option (List String)))) :
    Except ObjLoadError ObjData :=
  match openResult with
  | none => .error ObjLoadError.ioError
  | some ls => loadObjLines parseF parseU [⟨0, 0, 0⟩] [] ls

/-- Sample face token 12/3/4 used by the loader theorems. -/
def tokSlash : String := "12/3/4"

/-- Sample numeric token 12 used by the loader theorems. -/
def tokTwelve : String := "12"

/-- Sample index parser accepting only the token 12, standing in for the
external str::parse at the inputs used here. -/
def puTwelve : String → Option ℕ :=
  fun s => if s = tokTwelve then some 12 else none

/-- Sample float parser rejecting every token, standing in for the external
str::parse at the inputs used here. -/
def pfNone : String → Option ℚ :=
  fun _ => none

/-! Helper lemmas about the valid-prefix length of a polygon row. -/

theorem validCountAux_le_cap (l : List ℕ) (c : ℕ) : validCountAux c l ≤ c := by
  induction l generalizing c with
  | nil => cases c <;> simp [validCountAux]
  | cons v rest ih =>
    cases c with
    | zero => simp [validCountAux]
    | succ c =>
      simp only [validCountAux]
      split
      · omega
      · have := ih c
        omega

theorem validCountAux_le_len (l : List ℕ) (c : ℕ) :
    validCountAux c l ≤ l.length := by
  induction l generalizing c with
  | nil => cases c <;> simp [validCountAux]
  | cons v rest ih =>
    cases c with
    | zero => simp [validCountAux]
    | succ c =>
      simp only [validCountAux]
      split
      · omega
      · have := ih c
        simp only [List.length_cons]
        omega

theorem validCountAux_elem (l : List ℕ) (c i : ℕ)
    (h : i < validCountAux c l) :
    l[i]? = some (l.getD i 0) ∧ l.getD i 0 ≠ RC_MESH_NULL_IDX := by
  induction l generalizing c i with
  | nil => cases c <;> simp [validCountAux] at h
  | cons v rest ih =>
    cases c with
    | zero => simp [validCountAux] at h
    | succ c =>
      simp only [validCountAux] at h
      by_cases hv : v = RC_MESH_NULL_IDX
      · simp [hv] at h
      · simp only [if_neg hv] at h
        cases i with
        | zero => simpa [List.getD] using hv
        | succ i =>
          have := ih c i (by omega)
          simpa [List.getD] using this

theorem validCountAux_stop (l : List ℕ) (c : ℕ)
    (h : validCountAux c l < c) :
    l[validCountAux c l]? = none ∨
      l[validCountAux c l]? = some RC_MESH_NULL_IDX := by
  induction l generalizing c with
  | nil => left; simp
  | cons v rest ih =>
    cases c with
    | zero => omega
    | succ c =>
      by_cases hv : v = RC_MESH_NULL_IDX
      · right
        simp [validCountAux, hv]
      · simp only [validCountAux, if_neg hv] at h ⊢
        have := ih c (by omega)
        simpa using this

theorem length_flatMap_const {α : Type} (l : List ℕ) (f : ℕ → List α) (n : ℕ)
    (h : ∀ i ∈ l, (f i).length = n) : (l.flatMap f).length = n * l.length := by
  induction l with
  | nil => simp
  | cons a t ih =>
    have ha : (f a).length = n := h a (by simp)
    have ht := ih fun i hi => h i (by simp [hi])
    simp only [List.flatMap_cons, List.length_append, ha, ht, List.length_cons]
    ring

/-- C10: the primitive-kind constants of the draw protocol are not pairwise
distinct: DU_DRAW_TRIS (debug_draw2.rs) equals DU_DRAW_LINES (debug_draw.rs),
both being 2, so the value passed to begin() cannot distinguish the polygon
renderer's line batch from the slope renderer's filled-triangle batch. -/
theorem draw_prim_constants_collide :
    DU_DRAW_TRIS = DU_DRAW_LINES ∧ DU_DRAW_TRIS = 2 ∧ DU_DRAW_LINES = 2 := by
  decide

/-- C6: the fill pass routes area byte 63 to the fixed walkable color
(0, 0.75, 1, 0.25), area byte 0 to the fixed null color (0, 0, 0, 0.25), and
every other area byte to the sink's pluggable area_to_col lookup, never to
the two fixed constants. -/
theorem area_color_routing (areaToCol : ℕ → Vec4) :
    polyColor areaToCol RC_WALKABLE_AREA = ⟨0, 3/4, 1, 1/4⟩ ∧
    polyColor areaToCol RC_NULL_AREA = ⟨0, 0, 0, 1/4⟩ ∧
    ∀ a : ℕ, a ≠ RC_WALKABLE_AREA → a ≠ RC_NULL_AREA →
      polyColor areaToCol a = areaToCol a := by
  refine ⟨rfl, rfl, ?_⟩
  intro a h63 h0
  simp [polyColor, RC_WALKABLE_AREA, RC_NULL_AREA] at h63 h0 ⊢
  simp [h63, h0]

/-- Witness for area_color_routing at a concrete lookup and area byte 7. -/
theorem area_color_routing_witness :
    polyColor (fun _ => ⟨1, 2, 3, 4⟩) RC_WALKABLE_AREA = ⟨0, 3/4, 1, 1/4⟩ ∧
    polyColor (fun _ => ⟨1, 2, 3, 4⟩) 7 = ⟨1, 2, 3, 4⟩ := by
  refine ⟨(area_color_routing fun _ => ⟨1, 2, 3, 4⟩).1, ?_⟩
  exact (area_color_routing fun _ => ⟨1, 2, 3, 4⟩).2.2 7 (by decide) (by decide)

/-- C2 (refuted; the code panics): the boundary pass reads row position j + 1
without a bounds check (debug_draw.rs line 83).  On a mesh whose single
polygon row [0, 1, 2] is shorter than nvp = 4 and carries no sentinel
terminator, du_debug_draw_poly_mesh hits an out-of-bounds Vec index, so the
embedding's panic branch is reached: the whole trace is none. -/
theorem poly_mesh_draw_panics :
    duDebugDrawPolyMesh (fun _ => ⟨0, 0, 0, 0⟩)
      ⟨[⟨0, 0, 0⟩, ⟨0, 0, 0⟩, ⟨0, 0, 0⟩], [[0, 1, 2]], [5], 4, 1, 1, ⟨0, 0, 0⟩⟩
      = none := by
  decide

/-- Counterexample to C5 as stated: the polygon row [0, 1, 2] has k = 3 valid
in-range indices under nvp = 4, so the claim demands 3 edges (6 vertex calls),
but the boundary pass panics on the unchecked row read at position 3 instead
of emitting them. -/
theorem boundary_pass_short_row_cex :
    boundLoop [⟨0, 0, 0⟩, ⟨0, 0, 0⟩, ⟨0, 0, 0⟩] 1 1 ⟨0, 0, 0⟩ 4 [0, 1, 2]
      (boundRange 4) = none
    ∧ validCount 4 [0, 1, 2] = 3 := by
  decide

/-- Counterexample to C1 as stated, in two parts.  First, on the row
[0xffff, 0, 1] under nvp = 3 the valid prefix is empty (k = 0, so the claim
demands 0 vertex calls, vacuously all k indices in range), yet the fill pass
never re-checks positions 0 and 1 for the sentinel and emits 2 vertex calls.
Second, on a mesh with 65536 vertices and row [0, 1, 2] under nvp = 5 (k = 3,
all indices below the vertex count, so the claim demands 3 vertex calls), the
u16-truncated vertex-count comparison of debug_draw.rs line 57 degenerates to
len 0 and the fill pass emits 0 vertex calls. -/
theorem fill_pass_fan_count_cex :
    ((fillLoop [⟨0, 0, 0⟩, ⟨0, 0, 0⟩] 1 1 ⟨0, 0, 0⟩ ⟨0, 0, 0, 0⟩
        [65535, 0, 1] (fillRange 3)).map List.length = some 2
      ∧ validCount 3 [65535, 0, 1] = 0)
    ∧ ((fillLoop (List.replicate 65536 (⟨0, 0, 0⟩ : Vec3)) 1 1 ⟨0, 0, 0⟩
        ⟨0, 0, 0, 0⟩ [0, 1, 2] (fillRange 5)).map List.length = some 0
      ∧ validCount 5 [0, 1, 2] = 3) := by
  refine ⟨by decide, ?_, by decide⟩
  have hr : fillRange 5 = [2, 3, 4] := by decide
  have hlen : (List.replicate 65536 (⟨0, 0, 0⟩ : Vec3)).length = 65536 := by
    rw [List.length_replicate]
  rw [hr]
  simp only [fillLoop, vertEvents, hlen, List.getElem?_cons_zero,
    List.getElem?_cons_succ, List.getElem?_nil, Nat.mod_self, ge_iff_le,
    Nat.zero_le, if_true, Option.some_bind, List.append_nil]
  norm_num [RC_MESH_NULL_IDX]

/-- C8: ObjData::triangulate fan-triangulates every face of length at least 3
from its first vertex, producing face.len() - 2 triangles
[face[0], face[i], face[i+1]] in order; shorter faces produce none; faces are
processed in order; a quad face f 1 2 3 4 yields (1,2,3) then (1,3,4); and the
ObjData of 6 vertices (plus the dummy) holding a pentagon and a triangle has
vertex_count 6, face_count 2, and a triangulation of length 4. -/
theorem triangulate_fan :
    (∀ (vs : List Vec3) (face : List ℕ), 3 ≤ face.length →
      (ObjData.mk vs [face]).triangulate.length = face.length - 2 ∧
      ∀ t, t < face.length - 2 →
        (ObjData.mk vs [face]).triangulate[t]? =
          some (face.getD 0 0, face.getD (t + 1) 0, face.getD (t + 2) 0)) ∧
    (∀ (vs : List Vec3) (face : List ℕ), face.length < 3 →
      (ObjData.mk vs [face]).triangulate = []) ∧
    (∀ (vs : List Vec3) (f1 : List ℕ) (rest : List (List ℕ)),
      (ObjData.mk vs (f1 :: rest)).triangulate =
        (ObjData.mk vs [f1]).triangulate ++ (ObjData.mk vs rest).triangulate) ∧
    (ObjData.mk [⟨0, 0, 0⟩] [[1, 2, 3, 4]]).triangulate
      = [(1, 2, 3), (1, 3, 4)] ∧
    (ObjData.mk (List.replicate 7 ⟨0, 0, 0⟩)
      [[1, 2, 3, 4, 5], [1, 5, 6]]).vertexCount = 6 ∧
    (ObjData.mk (List.replicate 7 ⟨0, 0, 0⟩)
      [[1, 2, 3, 4, 5], [1, 5, 6]]).faceCount = 2 ∧
    (ObjData.mk (List.replicate 7 ⟨0, 0, 0⟩)
      [[1, 2, 3, 4, 5], [1, 5, 6]]).triangulate.length = 4 := by
  refine ⟨?_, ?_, ?_, by decide, by decide, by decide, by decide⟩
  · intro vs face h
    constructor
    · simp [ObjData.triangulate, h]
    · intro t ht
      simp only [ObjData.triangulate, List.flatMap_cons, List.flatMap_nil,
        List.append_nil, if_pos h]
      rw [List.getElem?_map, List.getElem?_range']
      · rw [show 1 + 1 * t = t + 1 from by omega]
        rw [show t + 1 + 1 = t + 2 from by omega]
        simp
      · omega
  · intro vs face h
    simp [ObjData.triangulate, Nat.not_le.mpr h]
  · intro vs f1 rest
    simp [ObjData.triangulate]

/-- Witness for triangulate_fan at the concrete pentagon face. -/
theorem triangulate_fan_witness :
    (ObjData.mk ([] : List Vec3) [[1, 2, 3, 4, 5]]).triangulate.length = 3 ∧
    (ObjData.mk ([] : List Vec3) [[1, 2, 3, 4, 5]]).triangulate[1]?
      = some (1, 3, 4) := by
  have h := triangulate_fan.1 ([] : List Vec3) [1, 2, 3, 4, 5] (by decide)
  exact ⟨h.1, h.2 1 (by decide)⟩

/-- Indexing within bounds yields the defaulted accessor's value. -/
theorem getElem?_eq_some_getD {α : Type} (l : List α) (i : ℕ) (d : α)
    (h : i < l.length) : l[i]? = some (l.getD i d) := by
  simp [List.getElem?_eq_getElem h]

/-- Main induction for the fill pass: over the iteration window [j, j+n) of
the loop for j in 2..nvp, with the whole window inside nvp, a row whose valid
prefix has not ended before j and ends inside the window emits exactly the
fan triangles of positions j..k. -/
theorem fillLoop_range_ok (verts : List Vec3) (cs ch : ℚ) (bmin : Vec3)
    (color : Vec4) (poly : List ℕ) (nvp : ℤ)
    (hL : verts.length < 65536)
    (hrange : ∀ i < validCount nvp poly, poly.getD i 0 < verts.length)
    (n j : ℕ) (hj2 : 2 ≤ j) (hjk : j ≤ validCount nvp poly)
    (hkn : validCount nvp poly ≤ j + n) (hcap : j + n ≤ nvp.toNat) :
    fillLoop verts cs ch bmin color poly (List.range' j n) =
      some ((List.range' j (validCount nvp poly - j)).flatMap fun i =>
        [poly.getD 0 0, poly.getD (i - 1) 0, poly.getD i 0].map fun vi =>
          DrawEvent.vertex (fillTransform cs ch bmin 0 (verts.getD vi ⟨0, 0, 0⟩))
            color) := by
  induction n generalizing j with
  | zero =>
    have hk : validCount nvp poly = j := by omega
    simp [hk, List.range', fillLoop]
  | succ n ih =>
    rcases Nat.eq_or_lt_of_le hjk with heq | hlt
    · -- j = k: the loop breaks immediately
      have hkcap : validCount nvp poly < nvp.toNat := by omega
      have hstop : poly[validCount nvp poly]? = none ∨
          poly[validCount nvp poly]? = some RC_MESH_NULL_IDX :=
        validCountAux_stop poly nvp.toNat hkcap
      rw [List.range'_succ]
      rcases hstop with hnone | hsent
      · simp [fillLoop, heq, hnone]
      · simp [fillLoop, heq, hsent]
    · -- j < k: one triangle is emitted and the loop continues
      have hvc : validCountAux nvp.toNat poly = validCount nvp poly := rfl
      have hj : poly[j]? = some (poly.getD j 0) ∧
          poly.getD j 0 ≠ RC_MESH_NULL_IDX :=
        validCountAux_elem poly nvp.toNat j hlt
      have h0 : poly[0]? = some (poly.getD 0 0) ∧
          poly.getD 0 0 ≠ RC_MESH_NULL_IDX :=
        validCountAux_elem poly nvp.toNat 0 (by omega)
      have hp : poly[j - 1]? = some (poly.getD (j - 1) 0) ∧
          poly.getD (j - 1) 0 ≠ RC_MESH_NULL_IDX :=
        validCountAux_elem poly nvp.toNat (j - 1) (by omega)
      have hmod : verts.length % 65536 = verts.length := Nat.mod_eq_of_lt hL
      have hr0 : poly.getD 0 0 < verts.length := hrange 0 (by omega)
      have hrp : poly.getD (j - 1) 0 < verts.length := hrange (j - 1) (by omega)
      have hrj : poly.getD j 0 < verts.length := hrange j hlt
      have hn0 : ¬ (verts.length ≤ poly.getD 0 0) := Nat.not_le.mpr hr0
      have hnp : ¬ (verts.length ≤ poly.getD (j - 1) 0) := Nat.not_le.mpr hrp
      have hnj : ¬ (verts.length ≤ poly.getD j 0) := Nat.not_le.mpr hrj
      rw [show validCount nvp poly - j = (validCount nvp poly - (j + 1)) + 1
        from by omega]
      rw [List.range'_succ, List.range'_succ]
      simp only [List.flatMap_cons]
      simp only [fillLoop, hj.1, if_neg hj.2, Bind.bind, Option.bind,
        vertEvents, hmod, h0.1, hp.1, hn0, hnp, hnj, ge_iff_le, if_false,
        getElem?_eq_some_getD verts _ ((⟨0, 0, 0⟩ : Vec3)) hr0,
        getElem?_eq_some_getD verts _ ((⟨0, 0, 0⟩ : Vec3)) hrp,
        getElem?_eq_some_getD verts _ ((⟨0, 0, 0⟩ : Vec3)) hrj]
      rw [ih (j + 1) (by omega) hlt (by omega) (by omega)]
      simp

/-- C1 (amended): for every polygon mesh with fewer than 2^16 vertices (the
in-range test compares against the vertex count cast to u16) and every
polygon whose stored row does not hold the sentinel at positions 0 or 1 (the
fill loop never re-checks those positions), with k valid indices (the prefix
of the stored row without sentinel, ending at the sentinel, the end of the
row, or nvp), all of them below the vertex count, the fill pass emits exactly
the max(0, k-2) fan triangles [poly[0], poly[i-1], poly[i]] for i in 2..k,
that is 3 * max(0, k-2) vertex calls. -/
theorem fill_pass_fan_count (verts : List Vec3) (cs ch : ℚ) (bmin : Vec3)
    (color : Vec4) (poly : List ℕ) (nvp : ℤ)
    (h01 : ∀ i, i < 2 → i < poly.length → poly.getD i 0 ≠ RC_MESH_NULL_IDX)
    (hrange : ∀ i < validCount nvp poly, poly.getD i 0 < verts.length)
    (hL : verts.length < 65536) :
    fillLoop verts cs ch bmin color poly (fillRange nvp) =
      some (fanSpecEvents verts cs ch bmin color poly (validCount nvp poly)) ∧
    (fanSpecEvents verts cs ch bmin color poly (validCount nvp poly)).length
      = 3 * (validCount nvp poly - 2) := by
  constructor
  · have hvc : validCountAux nvp.toNat poly = validCount nvp poly := rfl
    have hcapk : validCount nvp poly ≤ nvp.toNat :=
      validCountAux_le_cap poly nvp.toNat
    have hlenk : validCount nvp poly ≤ poly.length :=
      validCountAux_le_len poly nvp.toNat
    by_cases hk2 : 2 ≤ validCount nvp poly
    · have hm : (nvp - 2).toNat = nvp.toNat - 2 := by omega
      have := fillLoop_range_ok verts cs ch bmin color poly nvp hL hrange
        ((nvp - 2).toNat) 2 (by omega) hk2 (by omega) (by omega)
      rw [fillRange, this, fanSpecEvents]
    · have hfan : fanSpecEvents verts cs ch bmin color poly
          (validCount nvp poly) = [] := by
        rw [fanSpecEvents, show validCount nvp poly - 2 = 0 from by omega]
        simp
      rw [hfan]
      by_cases hnvp : nvp.toNat ≤ 2
      · rw [fillRange, show (nvp - 2).toNat = 0 from by omega]
        simp [fillLoop]
      · have hstop : poly[validCount nvp poly]? = none ∨
            poly[validCount nvp poly]? = some RC_MESH_NULL_IDX :=
          validCountAux_stop poly nvp.toNat (by omega)
        have hnone : poly[validCount nvp poly]? = none := by
          rcases hstop with h | h
          · exact h
          · exfalso
            have hklen : validCount nvp poly < poly.length := by
              by_contra hc
              rw [List.getElem?_eq_none (by omega)] at h
              exact Option.noConfusion h
            have := h01 (validCount nvp poly) (by omega) hklen
            rw [List.getD_eq_getElem?_getD, h] at this
            simp at this
        have hlen2 : poly.length ≤ validCount nvp poly := by
          by_contra hc
          rw [List.getElem?_eq_getElem (by omega)] at hnone
          exact Option.noConfusion hnone
        rw [fillRange, show (nvp - 2).toNat = ((nvp - 2).toNat - 1) + 1
          from by omega, List.range'_succ]
        have h2 : poly[(2 : ℕ)]? = none := List.getElem?_eq_none (by omega)
        simp [fillLoop, h2]
  · rw [fanSpecEvents]
    rw [length_flatMap_const _ _ 3 (by intro i hi; simp)]
    simp [Nat.mul_comm]

set_option maxRecDepth 4000 in
/-- Main induction for the boundary pass: over the iteration window [j, j+n)
of the loop for j in 0..nvp, a row whose valid prefix ends inside the window
by sentinel or by reaching nvp emits exactly the closed-loop edges of
positions j..k. -/
theorem boundLoop_range_ok (verts : List Vec3) (cs ch : ℚ) (bmin : Vec3)
    (poly : List ℕ) (nvp : ℤ)
    (hL : verts.length < 65536)
    (hterm : validCount nvp poly = nvp.toNat ∨
      poly[validCount nvp poly]? = some RC_MESH_NULL_IDX)
    (hrange : ∀ i < validCount nvp poly, poly.getD i 0 < verts.length)
    (n j : ℕ) (hjk : j ≤ validCount nvp poly)
    (hkn : validCount nvp poly ≤ j + n) (hcap : j + n ≤ nvp.toNat) :
    boundLoop verts cs ch bmin nvp poly (List.range' j n) =
      some ((List.range' j (validCount nvp poly - j)).flatMap fun i =>
        [poly.getD i 0, poly.getD ((i + 1) % validCount nvp poly) 0].map
          fun vi =>
            DrawEvent.vertex
              (fillTransform cs ch bmin (1/10) (verts.getD vi ⟨0, 0, 0⟩))
              colBoundary) := by
  induction n generalizing j with
  | zero =>
    have hk : validCount nvp poly = j := by omega
    simp [hk, List.range', boundLoop]
  | succ n ih =>
    have hvc : validCountAux nvp.toNat poly = validCount nvp poly := rfl
    rcases Nat.eq_or_lt_of_le hjk with heq | hlt
    · -- j = k: the loop breaks on the sentinel
      have hsent : poly[validCount nvp poly]? = some RC_MESH_NULL_IDX := by
        rcases hterm with h | h
        · omega
        · exact h
      rw [List.range'_succ]
      simp [boundLoop, heq, hsent]
    · -- j < k: one edge is emitted and the loop continues
      have hj : poly[j]? = some (poly.getD j 0) ∧
          poly.getD j 0 ≠ RC_MESH_NULL_IDX :=
        validCountAux_elem poly nvp.toNat j hlt
      have hcapk : validCount nvp poly ≤ nvp.toNat :=
        validCountAux_le_cap poly nvp.toNat
      have hmod : verts.length % 65536 = verts.length := Nat.mod_eq_of_lt hL
      have hrj : poly.getD j 0 < verts.length := hrange j hlt
      have hnj : ¬ (verts.length ≤ poly.getD j 0) := Nat.not_le.mpr hrj
      have h0 : poly[0]? = some (poly.getD 0 0) ∧
          poly.getD 0 0 ≠ RC_MESH_NULL_IDX :=
        validCountAux_elem poly nvp.toNat 0 (by omega)
      have hr0 : poly.getD 0 0 < verts.length := hrange 0 (by omega)
      have hn0 : ¬ (verts.length ≤ poly.getD 0 0) := Nat.not_le.mpr hr0
      rw [show validCount nvp poly - j = (validCount nvp poly - (j + 1)) + 1
        from by omega]
      rw [List.range'_succ, List.range'_succ]
      simp only [List.flatMap_cons]
      rcases Nat.lt_or_ge (j + 1) (validCount nvp poly) with hlt1 | hge1
      · -- interior edge: the next index is j + 1
        have h1 : poly[j + 1]? = some (poly.getD (j + 1) 0) ∧
            poly.getD (j + 1) 0 ≠ RC_MESH_NULL_IDX :=
          validCountAux_elem poly nvp.toNat (j + 1) hlt1
        have hr1 : poly.getD (j + 1) 0 < verts.length := hrange (j + 1) hlt1
        have hn1 : ¬ (verts.length ≤ poly.getD (j + 1) 0) := Nat.not_le.mpr hr1
        rw [show (j + 1) % validCount nvp poly = j + 1
          from Nat.mod_eq_of_lt hlt1]
        simp only [boundLoop, hj.1, if_neg hj.2]
        rw [if_neg (show ¬ ((j : ℤ) + 1 ≥ nvp) from by omega)]
        simp only [Bind.bind, Option.bind, h1.1, if_neg h1.2, hj.1,
          vertEvents, hmod, hnj, hn1, ge_iff_le, if_false,
          getElem?_eq_some_getD verts _ ((⟨0, 0, 0⟩ : Vec3)) hrj,
          getElem?_eq_some_getD verts _ ((⟨0, 0, 0⟩ : Vec3)) hr1]
        rw [ih (j + 1) (by omega) (by omega) (by omega)]
        simp
      · -- last edge: wraps back to the first valid index
        have hj1 : j + 1 = validCount nvp poly := by omega
        rw [show (j + 1) % validCount nvp poly = 0 from by
          rw [hj1]; exact Nat.mod_self _]
        rcases hterm with hcapk2 | hsent
        · -- the prefix fills all nvp positions
          simp only [boundLoop, hj.1, if_neg hj.2]
          rw [if_pos (show (j : ℤ) + 1 ≥ nvp from by omega)]
          simp only [Bind.bind, Option.bind, hj.1, h0.1,
            vertEvents, hmod, hnj, hn0, ge_iff_le, if_false,
            getElem?_eq_some_getD verts _ ((⟨0, 0, 0⟩ : Vec3)) hrj,
            getElem?_eq_some_getD verts _ ((⟨0, 0, 0⟩ : Vec3)) hr0]
          rw [ih (j + 1) (by omega) (by omega) (by omega)]
          simp
        · -- the prefix is sentinel-terminated
          simp only [boundLoop, hj.1, if_neg hj.2]
          by_cases hcond : (j : ℤ) + 1 ≥ nvp
          · rw [if_pos hcond]
            simp only [Bind.bind, Option.bind, hj.1, h0.1,
              vertEvents, hmod, hnj, hn0, ge_iff_le, if_false,
              getElem?_eq_some_getD verts _ ((⟨0, 0, 0⟩ : Vec3)) hrj,
              getElem?_eq_some_getD verts _ ((⟨0, 0, 0⟩ : Vec3)) hr0]
            rw [ih (j + 1) (by omega) (by omega) (by omega)]
            simp only [List.map_cons, List.map_nil, List.cons_append,
              List.nil_append]
          · rw [if_neg hcond]
            rw [show poly[j + 1]? = some RC_MESH_NULL_IDX from by rw [hj1]; exact hsent]
            simp only [Bind.bind, Option.bind, reduceIte, hj.1, h0.1,
              vertEvents, hmod, hnj, hn0, ge_iff_le, if_false,
              getElem?_eq_some_getD verts _ ((⟨0, 0, 0⟩ : Vec3)) hrj,
              getElem?_eq_some_getD verts _ ((⟨0, 0, 0⟩ : Vec3)) hr0]
            rw [ih (j + 1) (by omega) (by omega) (by omega)]
            simp only [List.map_cons, List.map_nil, List.cons_append,
              List.nil_append]
  
/-- C5 (amended): for every polygon mesh with fewer than 2^16 vertices and
every polygon with k valid (non-sentinel, in-range) indices whose valid
prefix is terminated by the sentinel or by reaching nvp (not by the bare end
of the stored row, where the pass panics instead), the boundary pass emits
exactly k edges (2k vertex calls): edge j connects valid vertex j to valid
vertex (j+1) mod k, the last edge wrapping back to the first valid vertex. -/
theorem boundary_pass_closed_loop (verts : List Vec3) (cs ch : ℚ)
    (bmin : Vec3) (poly : List ℕ) (nvp : ℤ)
    (hterm : validCount nvp poly = nvp.toNat ∨
      poly[validCount nvp poly]? = some RC_MESH_NULL_IDX)
    (hrange : ∀ i < validCount nvp poly, poly.getD i 0 < verts.length)
    (hL : verts.length < 65536) :
    boundLoop verts cs ch bmin nvp poly (boundRange nvp) =
      some (edgeSpecEvents verts cs ch bmin poly (validCount nvp poly)) ∧
    (edgeSpecEvents verts cs ch bmin poly (validCount nvp poly)).length
      = 2 * validCount nvp poly := by
  constructor
  · have hvc : validCountAux nvp.toNat poly = validCount nvp poly := rfl
    have hcapk : validCount nvp poly ≤ nvp.toNat :=
      validCountAux_le_cap poly nvp.toNat
    have := boundLoop_range_ok verts cs ch bmin poly nvp hL hterm hrange
      nvp.toNat 0 (by omega) (by omega) (by omega)
    rw [boundRange, List.range_eq_range', this, edgeSpecEvents,
      List.range_eq_range', Nat.sub_zero]
  · rw [edgeSpecEvents]
    rw [length_flatMap_const _ _ 2 (by intro i hi; simp)]
    simp [Nat.mul_comm]

/-- Witness for fill_pass_fan_count: the row [0, 1, 2, 0xffff] under nvp = 6
has k = 3, and the fill pass emits its one fan triangle (3 vertex calls). -/
theorem fill_pass_fan_count_witness :
    fillLoop [⟨0, 0, 0⟩, ⟨0, 0, 0⟩, ⟨0, 0, 0⟩] 1 1 ⟨0, 0, 0⟩ ⟨0, 0, 0, 0⟩
        [0, 1, 2, 65535] (fillRange 6) =
      some (fanSpecEvents [⟨0, 0, 0⟩, ⟨0, 0, 0⟩, ⟨0, 0, 0⟩] 1 1 ⟨0, 0, 0⟩
        ⟨0, 0, 0, 0⟩ [0, 1, 2, 65535] (validCount 6 [0, 1, 2, 65535])) ∧
    (fanSpecEvents [⟨0, 0, 0⟩, ⟨0, 0, 0⟩, ⟨0, 0, 0⟩] 1 1 ⟨0, 0, 0⟩
        ⟨0, 0, 0, 0⟩ [0, 1, 2, 65535]
        (validCount 6 [0, 1, 2, 65535])).length =
      3 * (validCount 6 [0, 1, 2, 65535] - 2) :=
  fill_pass_fan_count _ _ _ _ _ _ _ (by decide) (by decide) (by decide)

/-- Witness for boundary_pass_closed_loop: the row [0, 1, 2, 0xffff] under
nvp = 4 has k = 3 with a sentinel terminator, and the boundary pass emits its
3 closed-loop edges (6 vertex calls). -/
theorem boundary_pass_closed_loop_witness :
    boundLoop [⟨0, 0, 0⟩, ⟨0, 0, 0⟩, ⟨0, 0, 0⟩] 1 1 ⟨0, 0, 0⟩ 4
        [0, 1, 2, 65535] (boundRange 4) =
      some (edgeSpecEvents [⟨0, 0, 0⟩, ⟨0, 0, 0⟩, ⟨0, 0, 0⟩] 1 1 ⟨0, 0, 0⟩
        [0, 1, 2, 65535] (validCount 4 [0, 1, 2, 65535])) ∧
    (edgeSpecEvents [⟨0, 0, 0⟩, ⟨0, 0, 0⟩, ⟨0, 0, 0⟩] 1 1 ⟨0, 0, 0⟩
        [0, 1, 2, 65535] (validCount 4 [0, 1, 2, 65535])).length =
      2 * validCount 4 [0, 1, 2, 65535] :=
  boundary_pass_closed_loop _ _ _ _ _ _ (by decide) (by decide) (by decide)

/-- One step of the slope renderer's per-triangle loop, with every fetch
resolved: the emitted block is three vertex_uv calls carrying the
slope-derived color and the bit-trick texture axes. -/
theorem slopeLoop_cons (m : InputMesh) (thr ts : ℚ) (i : ℕ) (js : List ℕ)
    (n : Vec3) (hn : m.normals[i]? = some n)
    (t0 t1 t2 : ℤ) (h0 : m.tris[i]? = some t0) (h1 : m.tris[i + 1]? = some t1)
    (h2 : m.tris[i + 2]? = some t2)
    (hp0 : 0 ≤ t0) (hp1 : 0 ≤ t1) (hp2 : 0 ≤ t2)
    (va vb vc : Vec3) (hva : m.verts[t0.toNat]? = some va)
    (hvb : m.verts[t1.toNat]? = some vb) (hvc : m.verts[t2.toNat]? = some vc) :
    slopeLoop m thr ts (i :: js) =
      (slopeLoop m thr ts js).map fun tail =>
        DrawEvent.vertexUv va (slopeColor n thr)
            (texCoord va ((1 <<< axisSel n) &&& 3)
              ((1 <<< ((1 <<< axisSel n) &&& 3)) &&& 3) ts) ::
        DrawEvent.vertexUv vb (slopeColor n thr)
            (texCoord vb ((1 <<< axisSel n) &&& 3)
              ((1 <<< ((1 <<< axisSel n) &&& 3)) &&& 3) ts) ::
        DrawEvent.vertexUv vc (slopeColor n thr)
            (texCoord vc ((1 <<< axisSel n) &&& 3)
              ((1 <<< ((1 <<< axisSel n) &&& 3)) &&& 3) ts) :: tail := by
  simp only [slopeLoop, hn, h0, h1, h2, i32AsIndex,
    if_neg (not_lt.mpr hp0), if_neg (not_lt.mpr hp1), if_neg (not_lt.mpr hp2),
    hva, hvb, hvc, Bind.bind, Option.bind]
  cases slopeLoop m thr ts js <;> rfl

/-- The Rust saturating cast to u8 equals clamp-to-[0,255]-then-truncate. -/
theorem rustCastU8_eq_truncClamp (q : ℚ) :
    (rustCastU8 q : ℤ) = specTruncClamp q := by
  rw [rustCastU8, specTruncClamp]
  have h1 : ⌊min 255 (max 0 q)⌋ = min 255 (max 0 ⌊q⌋) := by
    have h255 : ⌊(255 : ℚ)⌋ = 255 := by
      rw [show (255 : ℚ) = ((255 : ℤ) : ℚ) from by norm_num, Int.floor_intCast]
    rcases le_total q 0 with h | h
    · have hf : ⌊q⌋ ≤ 0 := by
        calc ⌊q⌋ ≤ ⌊(0 : ℚ)⌋ := Int.floor_le_floor h
        _ = 0 := Int.floor_zero
      rw [max_eq_left h, max_eq_left hf,
        min_eq_right (by norm_num : (0 : ℚ) ≤ 255),
        min_eq_right (by norm_num : (0 : ℤ) ≤ 255)]
      exact Int.floor_zero
    · have hf : 0 ≤ ⌊q⌋ := Int.le_floor.mpr (by exact_mod_cast h)
      rw [max_eq_right h, max_eq_right hf]
      rcases le_total q 255 with h2 | h2
      · have hf2 : ⌊q⌋ ≤ 255 := by
          calc ⌊q⌋ ≤ ⌊(255 : ℚ)⌋ := Int.floor_le_floor h2
          _ = 255 := h255
        rw [min_eq_right h2, min_eq_right hf2]
      · have hf2 : 255 ≤ ⌊q⌋ := by
          rw [show (255 : ℤ) = ⌊(255 : ℚ)⌋ from h255.symm]
          exact Int.floor_le_floor h2
        rw [min_eq_left h2, min_eq_left hf2, h255]
  rw [h1]
  exact Int.toNat_of_nonneg (le_min (by norm_num) (le_max_left _ _))

/-- C3 (amended): for every triangle processed by du_debug_draw_tri_mesh_slope
with normal (nx, ny, nz) and ny at least the walkable threshold (so the base
color is unblended), every RGB channel of the emitted color equals
trunc(clamp((2 + nx + ny) / 4 * 220, 0, 255)) / 255 - the saturating Rust
cast truncates instead of the claimed rounding - and the alpha channel
equals 1. -/
theorem slope_base_color_trunc (m : InputMesh) (thr ts : ℚ) (i : ℕ)
    (js : List ℕ) (n : Vec3) (hn : m.normals[i]? = some n) (hwalk : thr ≤ n.y)
    (t0 t1 t2 : ℤ) (h0 : m.tris[i]? = some t0) (h1 : m.tris[i + 1]? = some t1)
    (h2 : m.tris[i + 2]? = some t2)
    (hp0 : 0 ≤ t0) (hp1 : 0 ≤ t1) (hp2 : 0 ≤ t2)
    (va vb vc : Vec3) (hva : m.verts[t0.toNat]? = some va)
    (hvb : m.verts[t1.toNat]? = some vb) (hvc : m.verts[t2.toNat]? = some vc) :
    ∃ uva uvb uvc, slopeLoop m thr ts (i :: js) =
      (slopeLoop m thr ts js).map fun tail =>
        DrawEvent.vertexUv va
          ⟨(specTruncClamp ((2 + n.x + n.y) / 4 * 220) : ℚ) / 255,
           (specTruncClamp ((2 + n.x + n.y) / 4 * 220) : ℚ) / 255,
           (specTruncClamp ((2 + n.x + n.y) / 4 * 220) : ℚ) / 255, 1⟩ uva ::
        DrawEvent.vertexUv vb
          ⟨(specTruncClamp ((2 + n.x + n.y) / 4 * 220) : ℚ) / 255,
           (specTruncClamp ((2 + n.x + n.y) / 4 * 220) : ℚ) / 255,
           (specTruncClamp ((2 + n.x + n.y) / 4 * 220) : ℚ) / 255, 1⟩ uvb ::
        DrawEvent.vertexUv vc
          ⟨(specTruncClamp ((2 + n.x + n.y) / 4 * 220) : ℚ) / 255,
           (specTruncClamp ((2 + n.x + n.y) / 4 * 220) : ℚ) / 255,
           (specTruncClamp ((2 + n.x + n.y) / 4 * 220) : ℚ) / 255, 1⟩ uvc ::
        tail := by
  refine ⟨texCoord va ((1 <<< axisSel n) &&& 3)
      ((1 <<< ((1 <<< axisSel n) &&& 3)) &&& 3) ts,
    texCoord vb ((1 <<< axisSel n) &&& 3)
      ((1 <<< ((1 <<< axisSel n) &&& 3)) &&& 3) ts,
    texCoord vc ((1 <<< axisSel n) &&& 3)
      ((1 <<< ((1 <<< axisSel n) &&& 3)) &&& 3) ts, ?_⟩
  rw [slopeLoop_cons m thr ts i js n hn t0 t1 t2 h0 h1 h2 hp0 hp1 hp2
    va vb vc hva hvb hvc]
  have hcol : slopeColor n thr =
      ⟨(specTruncClamp ((2 + n.x + n.y) / 4 * 220) : ℚ) / 255,
       (specTruncClamp ((2 + n.x + n.y) / 4 * 220) : ℚ) / 255,
       (specTruncClamp ((2 + n.x + n.y) / 4 * 220) : ℚ) / 255, 1⟩ := by
    rw [slopeColor, if_neg (not_lt.mpr hwalk), slopeBaseCol]
    rw [show ((rustCastU8 ((2 + n.x + n.y) / 4 * 220) : ℚ)) =
      ((specTruncClamp ((2 + n.x + n.y) / 4 * 220) : ℚ)) from by
        rw [← rustCastU8_eq_truncClamp]; push_cast; ring]
  rw [hcol]

/-- The texture-axis selection yields an axis among 0, 1, 2. -/
theorem axisSel_le_two (n : Vec3) : axisSel n ≤ 2 := by
  rw [axisSel]
  split_ifs <;> norm_num

/-- The bit trick (1 << a) & 3 computes (a + 1) mod 3 on the axis range. -/
theorem shl_and_three (a : ℕ) (h : a ≤ 2) : (1 <<< a) &&& 3 = (a + 1) % 3 := by
  interval_cases a <;> rfl

/-- Applied twice, the bit trick computes (a + 2) mod 3 on the axis range. -/
theorem shl_and_three2 (a : ℕ) (h : a ≤ 2) :
    (1 <<< ((1 <<< a) &&& 3)) &&& 3 = (a + 2) % 3 := by
  interval_cases a <;> rfl

/-- C4 (amended): for every triangle processed by du_debug_draw_tri_mesh_slope
with axis chosen by the claimed selection rule, the texture coordinate
emitted for each vertex v equals
(v[(axis+1) mod 3] * texScale, v[(axis+2) mod 3] * texScale): the code
advances the first texture axis once and the companion twice, not
(v[axis], v[(axis+1) mod 3]) as claimed. -/
theorem slope_tex_axes_shifted (m : InputMesh) (thr ts : ℚ) (i : ℕ)
    (js : List ℕ) (n : Vec3) (hn : m.normals[i]? = some n)
    (t0 t1 t2 : ℤ) (h0 : m.tris[i]? = some t0) (h1 : m.tris[i + 1]? = some t1)
    (h2 : m.tris[i + 2]? = some t2)
    (hp0 : 0 ≤ t0) (hp1 : 0 ≤ t1) (hp2 : 0 ≤ t2)
    (va vb vc : Vec3) (hva : m.verts[t0.toNat]? = some va)
    (hvb : m.verts[t1.toNat]? = some vb) (hvc : m.verts[t2.toNat]? = some vc) :
    ∃ c, slopeLoop m thr ts (i :: js) =
      (slopeLoop m thr ts js).map fun tail =>
        DrawEvent.vertexUv va c
          ⟨vecIdx va ((axisSel n + 1) % 3) * ts,
           vecIdx va ((axisSel n + 2) % 3) * ts⟩ ::
        DrawEvent.vertexUv vb c
          ⟨vecIdx vb ((axisSel n + 1) % 3) * ts,
           vecIdx vb ((axisSel n + 2) % 3) * ts⟩ ::
        DrawEvent.vertexUv vc c
          ⟨vecIdx vc ((axisSel n + 1) % 3) * ts,
           vecIdx vc ((axisSel n + 2) % 3) * ts⟩ :: tail := by
  refine ⟨slopeColor n thr, ?_⟩
  rw [slopeLoop_cons m thr ts i js n hn t0 t1 t2 h0 h1 h2 hp0 hp1 hp2
    va vb vc hva hvb hvc]
  rw [shl_and_three2 (axisSel n) (axisSel_le_two n),
    shl_and_three (axisSel n) (axisSel_le_two n)]
  simp only [texCoord]

section RatLitEval

attribute [local semireducible] Rat.add Rat.mul Rat.sub Rat.inv

/-- Counterexample to C3 as stated: at normal (-1, -1/2, 0) the luminance
argument is 27.5 (all f32 steps exact); the code emits channel 27/255 (the
cast truncates), while round(clamp(27.5, 0, 255)) / 255 = 28/255. -/
theorem slope_base_color_round_cex :
    slopeLoop ⟨[⟨1, 2, 3⟩, ⟨4, 5, 6⟩, ⟨7, 8, 9⟩], [0, 1, 2],
        [⟨-1, -1/2, 0⟩, ⟨-1, -1/2, 0⟩, ⟨-1, -1/2, 0⟩]⟩ (-1) 1 (slopeRange 3)
      = some [DrawEvent.vertexUv ⟨1, 2, 3⟩ ⟨27/255, 27/255, 27/255, 1⟩ ⟨2, 3⟩,
              DrawEvent.vertexUv ⟨4, 5, 6⟩ ⟨27/255, 27/255, 27/255, 1⟩ ⟨5, 6⟩,
              DrawEvent.vertexUv ⟨7, 8, 9⟩ ⟨27/255, 27/255, 27/255, 1⟩ ⟨8, 9⟩]
    ∧ (specRoundClamp ((2 + (-1) + (-1/2 : ℚ)) / 4 * 220) : ℚ) / 255
        ≠ (27 : ℚ) / 255 := by
  constructor
  · decide
  · rw [specRoundClamp, round_eq]
    norm_num

/-- Witness for slope_base_color_trunc at the triangle with normal
(-1, -1/2, 0) and threshold -1. -/
theorem slope_base_color_trunc_witness :
    ∃ uva uvb uvc,
      slopeLoop ⟨[⟨1, 2, 3⟩, ⟨4, 5, 6⟩, ⟨7, 8, 9⟩], [0, 1, 2],
          [⟨-1, -1/2, 0⟩, ⟨-1, -1/2, 0⟩, ⟨-1, -1/2, 0⟩]⟩ (-1) 1 (0 :: []) =
        (slopeLoop ⟨[⟨1, 2, 3⟩, ⟨4, 5, 6⟩, ⟨7, 8, 9⟩], [0, 1, 2],
          [⟨-1, -1/2, 0⟩, ⟨-1, -1/2, 0⟩, ⟨-1, -1/2, 0⟩]⟩ (-1) 1 []).map
          fun tail =>
            DrawEvent.vertexUv ⟨1, 2, 3⟩
              ⟨(specTruncClamp ((2 + Vec3.x ⟨-1, -1/2, 0⟩ +
                  Vec3.y ⟨-1, -1/2, 0⟩) / 4 * 220) : ℚ) / 255,
               (specTruncClamp ((2 + Vec3.x ⟨-1, -1/2, 0⟩ +
                  Vec3.y ⟨-1, -1/2, 0⟩) / 4 * 220) : ℚ) / 255,
               (specTruncClamp ((2 + Vec3.x ⟨-1, -1/2, 0⟩ +
                  Vec3.y ⟨-1, -1/2, 0⟩) / 4 * 220) : ℚ) / 255, 1⟩ uva ::
            DrawEvent.vertexUv ⟨4, 5, 6⟩
              ⟨(specTruncClamp ((2 + Vec3.x ⟨-1, -1/2, 0⟩ +
                  Vec3.y ⟨-1, -1/2, 0⟩) / 4 * 220) : ℚ) / 255,
               (specTruncClamp ((2 + Vec3.x ⟨-1, -1/2, 0⟩ +
                  Vec3.y ⟨-1, -1/2, 0⟩) / 4 * 220) : ℚ) / 255,
               (specTruncClamp ((2 + Vec3.x ⟨-1, -1/2, 0⟩ +
                  Vec3.y ⟨-1, -1/2, 0⟩) / 4 * 220) : ℚ) / 255, 1⟩ uvb ::
            DrawEvent.vertexUv ⟨7, 8, 9⟩
              ⟨(specTruncClamp ((2 + Vec3.x ⟨-1, -1/2, 0⟩ +
                  Vec3.y ⟨-1, -1/2, 0⟩) / 4 * 220) : ℚ) / 255,
               (specTruncClamp ((2 + Vec3.x ⟨-1, -1/2, 0⟩ +
                  Vec3.y ⟨-1, -1/2, 0⟩) / 4 * 220) : ℚ) / 255,
               (specTruncClamp ((2 + Vec3.x ⟨-1, -1/2, 0⟩ +
                  Vec3.y ⟨-1, -1/2, 0⟩) / 4 * 220) : ℚ) / 255, 1⟩ uvc ::
            tail :=
  slope_base_color_trunc
    ⟨[⟨1, 2, 3⟩, ⟨4, 5, 6⟩, ⟨7, 8, 9⟩], [0, 1, 2],
      [⟨-1, -1/2, 0⟩, ⟨-1, -1/2, 0⟩, ⟨-1, -1/2, 0⟩]⟩ (-1) 1 0 []
    ⟨-1, -1/2, 0⟩ rfl (by decide) 0 1 2 rfl rfl rfl
    (by decide) (by decide) (by decide)
    ⟨1, 2, 3⟩ ⟨4, 5, 6⟩ ⟨7, 8, 9⟩ rfl rfl rfl

/-- Counterexample to C4 as stated: for normal (0, 0, 1) the selected axis is
2, so the claim demands uv = (v[2], v[0]) = (3, 1) for vertex (1, 2, 3) at
scale 1, but the code emits (v[0], v[1]) = (1, 2). -/
theorem slope_tex_axes_cex :
    axisSel ⟨0, 0, 1⟩ = 2 ∧
    slopeLoop ⟨[⟨1, 2, 3⟩, ⟨4, 5, 6⟩, ⟨7, 8, 9⟩], [0, 1, 2],
        [⟨0, 0, 1⟩, ⟨0, 0, 1⟩, ⟨0, 0, 1⟩]⟩ (-2) 1 (slopeRange 3)
      = some
        [DrawEvent.vertexUv ⟨1, 2, 3⟩ ⟨110/255, 110/255, 110/255, 1⟩ ⟨1, 2⟩,
         DrawEvent.vertexUv ⟨4, 5, 6⟩ ⟨110/255, 110/255, 110/255, 1⟩ ⟨4, 5⟩,
         DrawEvent.vertexUv ⟨7, 8, 9⟩ ⟨110/255, 110/255, 110/255, 1⟩ ⟨7, 8⟩]
    ∧ ((⟨1, 2⟩ : Vec2) ≠
        ⟨vecIdx ⟨1, 2, 3⟩ 2 * 1, vecIdx ⟨1, 2, 3⟩ ((2 + 1) % 3) * 1⟩) := by
  decide

/-- Witness for slope_tex_axes_shifted at the triangle with normal
(0, 0, 1). -/
theorem slope_tex_axes_shifted_witness :
    ∃ c, slopeLoop ⟨[⟨1, 2, 3⟩, ⟨4, 5, 6⟩, ⟨7, 8, 9⟩], [0, 1, 2],
        [⟨0, 0, 1⟩, ⟨0, 0, 1⟩, ⟨0, 0, 1⟩]⟩ (-2) 1 (0 :: []) =
      (slopeLoop ⟨[⟨1, 2, 3⟩, ⟨4, 5, 6⟩, ⟨7, 8, 9⟩], [0, 1, 2],
        [⟨0, 0, 1⟩, ⟨0, 0, 1⟩, ⟨0, 0, 1⟩]⟩ (-2) 1 []).map fun tail =>
        DrawEvent.vertexUv ⟨1, 2, 3⟩ c
          ⟨vecIdx ⟨1, 2, 3⟩ ((axisSel ⟨0, 0, 1⟩ + 1) % 3) * 1,
           vecIdx ⟨1, 2, 3⟩ ((axisSel ⟨0, 0, 1⟩ + 2) % 3) * 1⟩ ::
        DrawEvent.vertexUv ⟨4, 5, 6⟩ c
          ⟨vecIdx ⟨4, 5, 6⟩ ((axisSel ⟨0, 0, 1⟩ + 1) % 3) * 1,
           vecIdx ⟨4, 5, 6⟩ ((axisSel ⟨0, 0, 1⟩ + 2) % 3) * 1⟩ ::
        DrawEvent.vertexUv ⟨7, 8, 9⟩ c
          ⟨vecIdx ⟨7, 8, 9⟩ ((axisSel ⟨0, 0, 1⟩ + 1) % 3) * 1,
           vecIdx ⟨7, 8, 9⟩ ((axisSel ⟨0, 0, 1⟩ + 2) % 3) * 1⟩ :: tail :=
  slope_tex_axes_shifted
    ⟨[⟨1, 2, 3⟩, ⟨4, 5, 6⟩, ⟨7, 8, 9⟩], [0, 1, 2],
      [⟨0, 0, 1⟩, ⟨0, 0, 1⟩, ⟨0, 0, 1⟩]⟩ (-2) 1 0 []
    ⟨0, 0, 1⟩ rfl 0 1 2 rfl rfl rfl
    (by decide) (by decide) (by decide)
    ⟨1, 2, 3⟩ ⟨4, 5, 6⟩ ⟨7, 8, 9⟩ rfl rfl rfl

end RatLitEval

/-- Under the triangle-mesh invariants, every step of the slope loop
succeeds and contributes exactly three vertex_uv events. -/
theorem slopeLoop_all_ok (m : InputMesh) (thr ts : ℚ)
    (hnorm : m.normals.length = m.tris.length)
    (htris : ∀ t ∈ m.tris, 0 ≤ t ∧ t.toNat < m.verts.length) :
    ∀ js : List ℕ, (∀ i ∈ js, i + 2 < m.tris.length) →
      ∃ body, slopeLoop m thr ts js = some body ∧
        body.length = 3 * js.length ∧
        ∀ e ∈ body, ∃ p c uv, e = DrawEvent.vertexUv p c uv := by
  intro js
  induction js with
  | nil =>
    intro _
    exact ⟨[], rfl, by simp, by simp⟩
  | cons i is ih =>
    intro hjs
    have hi : i + 2 < m.tris.length := hjs i (by simp)
    obtain ⟨body, hb, hlen, hall⟩ := ih fun j hj => hjs j (by simp [hj])
    have hn : m.normals[i]? = some (m.normals.getD i ⟨0, 0, 0⟩) :=
      getElem?_eq_some_getD _ _ _ (by omega)
    have h0 : m.tris[i]? = some (m.tris.getD i 0) :=
      getElem?_eq_some_getD _ _ _ (by omega)
    have h1 : m.tris[i + 1]? = some (m.tris.getD (i + 1) 0) :=
      getElem?_eq_some_getD _ _ _ (by omega)
    have h2 : m.tris[i + 2]? = some (m.tris.getD (i + 2) 0) :=
      getElem?_eq_some_getD _ _ _ (by omega)
    have hm0 : m.tris.getD i 0 ∈ m.tris := by
      rw [List.getD_eq_getElem?_getD, List.getElem?_eq_getElem (by omega)]
      exact List.getElem_mem _
    have hm1 : m.tris.getD (i + 1) 0 ∈ m.tris := by
      rw [List.getD_eq_getElem?_getD, List.getElem?_eq_getElem (by omega)]
      exact List.getElem_mem _
    have hm2 : m.tris.getD (i + 2) 0 ∈ m.tris := by
      rw [List.getD_eq_getElem?_getD, List.getElem?_eq_getElem (by omega)]
      exact List.getElem_mem _
    have hv0 : m.verts[(m.tris.getD i 0).toNat]? =
        some (m.verts.getD (m.tris.getD i 0).toNat ⟨0, 0, 0⟩) :=
      getElem?_eq_some_getD _ _ _ (htris _ hm0).2
    have hv1 : m.verts[(m.tris.getD (i + 1) 0).toNat]? =
        some (m.verts.getD (m.tris.getD (i + 1) 0).toNat ⟨0, 0, 0⟩) :=
      getElem?_eq_some_getD _ _ _ (htris _ hm1).2
    have hv2 : m.verts[(m.tris.getD (i + 2) 0).toNat]? =
        some (m.verts.getD (m.tris.getD (i + 2) 0).toNat ⟨0, 0, 0⟩) :=
      getElem?_eq_some_getD _ _ _ (htris _ hm2).2
    rw [slopeLoop_cons m thr ts i is _ hn _ _ _ h0 h1 h2
      (htris _ hm0).1 (htris _ hm1).1 (htris _ hm2).1 _ _ _ hv0 hv1 hv2, hb]
    refine ⟨_, rfl, ?_, ?_⟩
    · simp only [Option.map_some, List.length_cons, hlen, List.length_cons]
      ring
    · intro e he
      simp only [Option.map_some, List.mem_cons] at he
      rcases he with rfl | rfl | rfl | he
      · exact ⟨_, _, _, rfl⟩
      · exact ⟨_, _, _, rfl⟩
      · exact ⟨_, _, _, rfl⟩
      · exact hall e he

/-- C7: with any of the vertex, triangle-index, or normal sequences empty,
du_debug_draw_tri_mesh_slope makes zero calls on the sink; otherwise, under
the data-model invariants (triangle count a multiple of 3, one normal per
index slot, indices in range), its call sequence is exactly texture(true),
begin(DU_DRAW_TRIS, 1.0), three vertex_uv calls per triangle, end(),
texture(false). -/
theorem slope_trace_shape (m : InputMesh) (thr ts : ℚ) :
    ((m.verts = [] ∨ m.tris = [] ∨ m.normals = []) →
      duDebugDrawTriMeshSlope m thr ts = some []) ∧
    (m.tris.length % 3 = 0 → m.normals.length = m.tris.length →
      (∀ t ∈ m.tris, 0 ≤ t ∧ t.toNat < m.verts.length) →
      m.verts ≠ [] → m.tris ≠ [] → m.normals ≠ [] →
      ∃ body, duDebugDrawTriMeshSlope m thr ts =
          some ([DrawEvent.texture true, DrawEvent.begin DU_DRAW_TRIS 1]
            ++ body ++ [DrawEvent.endBatch, DrawEvent.texture false]) ∧
        body.length = m.tris.length ∧
        ∀ e ∈ body, ∃ p c uv, e = DrawEvent.vertexUv p c uv) := by
  constructor
  · intro h
    rw [duDebugDrawTriMeshSlope, if_pos h]
  · intro h3 hnorm htris hv ht hn
    have hmem : ∀ i ∈ slopeRange m.tris.length, i + 2 < m.tris.length := by
      intro i hi
      rw [slopeRange] at hi
      obtain ⟨j, hj, rfl⟩ := List.mem_range'.mp hi
      omega
    obtain ⟨body, hb, hlen, hall⟩ := slopeLoop_all_ok m thr ts hnorm htris
      (slopeRange m.tris.length) hmem
    refine ⟨body, ?_, ?_, hall⟩
    · rw [duDebugDrawTriMeshSlope, if_neg (by simp [hv, ht, hn])]
      simp only [hb, Bind.bind, Option.bind]
    · rw [hlen, slopeRange, List.length_range']
      omega

/-- Witness for slope_trace_shape on the empty mesh and on a one-triangle
mesh. -/
theorem slope_trace_shape_witness :
    duDebugDrawTriMeshSlope ⟨[], [], []⟩ 0 1 = some [] ∧
    ∃ body, duDebugDrawTriMeshSlope
        ⟨[⟨0, 0, 0⟩, ⟨0, 0, 0⟩, ⟨0, 0, 0⟩], [0, 1, 2],
          [⟨0, 1, 0⟩, ⟨0, 1, 0⟩, ⟨0, 1, 0⟩]⟩ 0 1 =
        some ([DrawEvent.texture true, DrawEvent.begin DU_DRAW_TRIS 1]
          ++ body ++ [DrawEvent.endBatch, DrawEvent.texture false]) ∧
      body.length = 3 ∧
      ∀ e ∈ body, ∃ p c uv, e = DrawEvent.vertexUv p c uv := by
  constructor
  · exact (slope_trace_shape ⟨[], [], []⟩ 0 1).1 (Or.inl rfl)
  · exact (slope_trace_shape
      ⟨[⟨0, 0, 0⟩, ⟨0, 0, 0⟩, ⟨0, 0, 0⟩], [0, 1, 2],
        [⟨0, 1, 0⟩, ⟨0, 1, 0⟩, ⟨0, 1, 0⟩]⟩ 0 1).2
      (by decide) (by decide) (by decide) (by decide) (by decide) (by decide)

/-- A face line with any malformed index token fails as a whole (the collect
over Result short-circuits). -/
theorem parseFaceTokens_none (parseU : String → Option ℕ) (args : List String)
    (h : ∃ t ∈ args, parseU (faceIndexToken t) = none) :
    parseFaceTokens parseU args = none := by
  induction args with
  | nil => simp at h
  | cons a rest ih =>
    obtain ⟨t, ht, hbad⟩ := h
    rw [parseFaceTokens]
    rcases List.mem_cons.mp ht with rfl | hmem
    · simp [hbad, Bind.bind, Option.bind]
    · cases hu : parseU (faceIndexToken a) with
      | none => simp [hu, Bind.bind, Option.bind]
      | some v =>
        simp [hu, ih ⟨t, hmem, hbad⟩, Bind.bind, Option.bind]

/-- C9: load_obj returns a typed result: an open or read I/O failure yields
Err(IoError) and aborts the load; a malformed numeric token on a v or f line
yields Err(ParseError) and aborts the load from any intermediate state, so no
partial ObjData escapes; lines not beginning with v or f (or empty) are
skipped; every error is one of the two kinds; and of a face token only the
text before the first slash is parsed (12/3/4 contributes index 12). -/
theorem load_obj_typed_errors (parseF : String → Option ℚ)
    (parseU : String → Option ℕ) :
    (loadObj parseF parseU none = .error ObjLoadError.ioError) ∧
    (∀ vs fs rest, loadObjLines parseF parseU vs fs (none :: rest) =
      .error ObjLoadError.ioError) ∧
    (∀ vs fs rest args, ((args[0]?).bind parseF) = none →
      loadObjLines parseF parseU vs fs (some (vTok :: args) :: rest) =
        .error ObjLoadError.parseError) ∧
    (∀ vs fs rest args, (∃ t ∈ args, parseU (faceIndexToken t) = none) →
      loadObjLines parseF parseU vs fs (some (fTok :: args) :: rest) =
        .error ObjLoadError.parseError) ∧
    (∀ vs fs rest t args, t ≠ vTok → t ≠ fTok →
      loadObjLines parseF parseU vs fs (some (t :: args) :: rest) =
        loadObjLines parseF parseU vs fs rest) ∧
    (∀ vs fs rest, loadObjLines parseF parseU vs fs (some [] :: rest) =
      loadObjLines parseF parseU vs fs rest) ∧
    (∀ e ls, loadObj parseF parseU ls = .error e →
      e = ObjLoadError.ioError ∨ e = ObjLoadError.parseError) ∧
    (loadObjLines pfNone puTwelve [⟨0, 0, 0⟩] [] [some [fTok, tokSlash]] =
      .ok ⟨[⟨0, 0, 0⟩], [[12]]⟩) := by
  refine ⟨rfl, fun vs fs rest => rfl, ?_, ?_, ?_, fun vs fs rest => rfl, ?_, ?_⟩
  · intro vs fs rest args h
    rw [loadObjLines]
    simp [h]
  · intro vs fs rest args h
    rw [loadObjLines]
    simp [parseFaceTokens_none parseU args h, vTok, fTok]
  · intro vs fs rest t args hv hf
    rw [loadObjLines]
    simp [hv, hf]
  · intro e ls _
    cases e
    · exact Or.inl rfl
    · exact Or.inr rfl
  · rfl

/-- Witness for load_obj_typed_errors: concrete failing and skipped lines. -/
theorem load_obj_typed_errors_witness :
    loadObj pfNone puTwelve none = .error ObjLoadError.ioError ∧
    loadObjLines pfNone puTwelve [⟨0, 0, 0⟩] []
      (some (vTok :: [tokTwelve]) :: []) = .error ObjLoadError.parseError ∧
    loadObjLines pfNone puTwelve [⟨0, 0, 0⟩] []
      (some (fTok :: [vTok]) :: []) = .error ObjLoadError.parseError ∧
    loadObjLines pfNone puTwelve [⟨0, 0, 0⟩] []
      (some (tokTwelve :: []) :: []) =
      loadObjLines pfNone puTwelve [⟨0, 0, 0⟩] [] [] := by
  refine ⟨(load_obj_typed_errors pfNone puTwelve).1, ?_, ?_, ?_⟩
  · exact (load_obj_typed_errors pfNone puTwelve).2.2.1 _ _ _ _ (by decide)
  · exact (load_obj_typed_errors pfNone puTwelve).2.2.2.1 _ _ _ _
      ⟨vTok, by decide, by decide⟩
  · exact (load_obj_typed_errors pfNone puTwelve).2.2.2.2.1 _ _ _ _ _
      (by decide) (by decide)
